import Mathlib

/-!
Shallow embedding of the kitchen digital-twin order service
(`src/apps/digital-twin/app/services/order_service.py` and
`src/apps/digital-twin/app/models/order.py`) and of the streaming
watermark semantics of the gold tables in
`src/pipelines/order_items/transformations/transformation.py`.

Timestamps are modelled as rationals (seconds); `datetime` subtraction
followed by `total_seconds() / 60` becomes rational subtraction and
division by 60.  Event bodies (Python dicts) are modelled by the fields
the service reads (`brand`, `customer_lat`, `customer_lon`) plus a count
of any other keys, so that Python dict truthiness (non-emptiness) is
representable.  Python's stable `sorted` is modelled by insertion sort,
which is also stable, hence produces the identical list.
-/

namespace Kitchen

/-- Parsed JSON event body: the keys read by the service plus a count of
unrelated keys (so that truthiness of the dict is faithful). -/
structure Body where
  brand : Option String
  customer_lat : Option ℚ
  customer_lon : Option ℚ
  extra : Nat
deriving DecidableEq, Repr

/-- Python truthiness of the parsed body dict: `event.body` is truthy
iff the dict is non-empty. -/
def Body.truthy (b : Body) : Bool :=
  b.brand.isSome || b.customer_lat.isSome || b.customer_lon.isSome || b.extra != 0

/-- Truthiness of the optional body (`None` and `{}` are falsy). -/
def body_truthy : Option Body → Bool
  | none => false
  | some b => b.truthy

/-- `body.get ("brand", "Unknown")` on an event's optional body. -/
def brand_of : Option Body → String
  | none => "Unknown"
  | some b => b.brand.getD "Unknown"

/-- `body.get ("customer_lat")` on an event's optional body. -/
def lat_of : Option Body → Option ℚ
  | none => none
  | some b => b.customer_lat

/-- `body.get ("customer_lon")` on an event's optional body. -/
def lon_of : Option Body → Option ℚ
  | none => none
  | some b => b.customer_lon

/-- `OrderEvent` from `app/models/order.py`. -/
structure OrderEvent where
  event_type : String
  timestamp : ℚ
  body : Option Body
deriving DecidableEq, Repr

/-- `OrderLifecycle` from `app/models/order.py`. -/
structure OrderLifecycle where
  order_id : String
  location : String
  brand : String
  customer_lat : Option ℚ
  customer_lon : Option ℚ
  events : List OrderEvent
  created_at : ℚ
  completed_at : Option ℚ
  status : String
deriving DecidableEq, Repr

/-- `OrderMetrics` from `app/models/order.py`. -/
structure OrderMetrics where
  total_orders : Nat
  completed_orders : Nat
  in_progress_orders : Nat
  avg_prep_time_minutes : Option ℚ
  avg_delivery_time_minutes : Option ℚ
  avg_total_time_minutes : Option ℚ
deriving DecidableEq, Repr

/-- `TimeRangeResponse` from `app/models/order.py`.  Its fields are
exactly `location`, `start_time`, `end_time`, `metrics`, `orders`. -/
structure TimeRangeResponse where
  location : String
  start_time : ℚ
  end_time : ℚ
  metrics : OrderMetrics
  orders : List OrderLifecycle
deriving DecidableEq, Repr

/-- The sort key of `sorted(events, key=lambda e: e.timestamp)`. -/
def eventLE (a b : OrderEvent) : Prop := a.timestamp ≤ b.timestamp

instance : DecidableRel eventLE := fun _ _ => inferInstanceAs (Decidable (_ ≤ _))

instance : IsTotal OrderEvent eventLE := ⟨fun a b => le_total a.timestamp b.timestamp⟩

instance : IsTrans OrderEvent eventLE := ⟨fun _ _ _ => le_trans⟩

/-- Python's `sorted(events, key=lambda e: e.timestamp)`.  Python's sort
is stable; insertion sort is stable, and any two stable sorts by the
same key agree, so this is the identical list. -/
def sort_events (events : List OrderEvent) : List OrderEvent :=
  List.insertionSort eventLE events

/-- `_determine_order_status` from `order_service.py`. -/
def determine_order_status (events : List OrderEvent) : String :=
  let event_types := events.map (·.event_type)
  if "delivered" ∈ event_types then "completed"
  else if "driver_picked_up" ∈ event_types ∨ "driver_ping" ∈ event_types then "out_for_delivery"
  else if "gk_ready" ∈ event_types then "ready_for_pickup"
  else if "gk_started" ∈ event_types ∨ "gk_finished" ∈ event_types then "preparing"
  else if "order_created" ∈ event_types then "created"
  else "unknown"

/-- The `for event in events: if event.event_type == "order_created" and
event.body: ...; break` loop of `_build_order_lifecycle`: brand and
coordinates from the first `order_created` event with a truthy body. -/
def extract_brand_coords : List OrderEvent → String × Option ℚ × Option ℚ
  | [] => ("Unknown", none, none)
  | e :: rest =>
    if e.event_type == "order_created" && body_truthy e.body then
      (brand_of e.body, lat_of e.body, lon_of e.body)
    else extract_brand_coords rest

/-- The `for event in reversed(events): if event.event_type == "delivered":
... break` loop: timestamp of the last `delivered` event. -/
def find_last_delivered (events : List OrderEvent) : Option ℚ :=
  (events.reverse.find? (fun ev => ev.event_type == "delivered")).map (·.timestamp)

/-- `_build_order_lifecycle` from `order_service.py`.  The empty check
`if not events: raise ValueError(...)` is modelled by matching on the
sorted list (sorting preserves emptiness exactly). -/
def build_order_lifecycle (order_id location : String) (events : List OrderEvent) :
    Except String OrderLifecycle :=
  match sort_events events with
  | [] => .error ("No events provided for order " ++ order_id)
  | first :: rest =>
    let sorted := first :: rest
    let bc := extract_brand_coords sorted
    let status := determine_order_status sorted
    let completed_at := if status = "completed" then find_last_delivered sorted else none
    .ok {
      order_id := order_id
      location := location
      brand := bc.1
      customer_lat := bc.2.1
      customer_lon := bc.2.2
      events := sorted
      created_at := first.timestamp
      completed_at := completed_at
      status := status }

/-- The dict comprehension `{event.event_type: event.timestamp for event
in order.events}`: lookup returns the timestamp of the LAST event of the
given type (later dict insertions overwrite earlier ones). -/
def event_map_ts (events : List OrderEvent) (t : String) : Option ℚ :=
  (events.reverse.find? (fun ev => ev.event_type == t)).map (·.timestamp)

/-- The three accumulator lists of `_calculate_metrics`. -/
structure TimesAcc where
  prep_times : List ℚ
  delivery_times : List ℚ
  total_times : List ℚ
deriving DecidableEq, Repr

/-- One iteration of the `for order in orders` loop of
`_calculate_metrics`. -/
def metrics_step (acc : TimesAcc) (o : OrderLifecycle) : TimesAcc :=
  if o.status = "completed" ∧ o.completed_at ≠ none then
    let acc1 :=
      match event_map_ts o.events "order_created", event_map_ts o.events "gk_ready" with
      | some c, some r => { acc with prep_times := acc.prep_times ++ [(r - c) / 60] }
      | _, _ => acc
    let acc2 :=
      match event_map_ts o.events "gk_ready", event_map_ts o.events "delivered" with
      | some r, some d => { acc1 with delivery_times := acc1.delivery_times ++ [(d - r) / 60] }
      | _, _ => acc1
    match o.completed_at with
    | some ca => { acc2 with total_times := acc2.total_times ++ [(ca - o.created_at) / 60] }
    | none => acc2
  else acc

/-- `sum(xs) / len(xs) if xs else None`. -/
def avg_opt (xs : List ℚ) : Option ℚ :=
  if xs = [] then none else some (xs.sum / (xs.length : ℚ))

/-- `_calculate_metrics` from `order_service.py`. -/
def calculate_metrics (orders : List OrderLifecycle) : OrderMetrics :=
  let total_orders := orders.length
  let completed_orders := orders.countP (fun o => o.status == "completed")
  let times := orders.foldl metrics_step ⟨[], [], []⟩
  { total_orders := total_orders
    completed_orders := completed_orders
    in_progress_orders := total_orders - completed_orders
    avg_prep_time_minutes := avg_opt times.prep_times
    avg_delivery_time_minutes := avg_opt times.delivery_times
    avg_total_time_minutes := avg_opt times.total_times }

/-- One row of the `all_events` query in `get_orders_in_range` (the
`body` column already parsed; `None` models SQL NULL, empty string, or
unparseable JSON, all of which leave `body_data = None`). -/
structure Row where
  event_type : String
  ts : ℚ
  order_id : String
  body : Option Body
deriving DecidableEq, Repr

/-- Construction of an `OrderEvent` from a result row. -/
def row_to_event (r : Row) : OrderEvent :=
  { event_type := r.event_type, timestamp := r.ts, body := r.body }

/-- `orders_dict[order_id].append(event)` on a `defaultdict(list)`:
Python dicts preserve insertion order, so groups appear in order of
first appearance and each group keeps arrival order. -/
def add_event (acc : List (String × List OrderEvent)) (oid : String) (ev : OrderEvent) :
    List (String × List OrderEvent) :=
  match acc with
  | [] => [(oid, [ev])]
  | (k, evs) :: rest =>
    if k = oid then (k, evs ++ [ev]) :: rest
    else (k, evs) :: add_event rest oid ev

/-- The grouping loop `for row in results: ... orders_dict[order_id].append(event)`. -/
def group_by_order_id (rows : List Row) : List (String × List OrderEvent) :=
  rows.foldl (fun acc r => add_event acc r.order_id (row_to_event r)) []

/-- The `for order_id, events in orders_dict.items(): orders.append(
_build_order_lifecycle(...))` loop; an exception from any build
propagates. -/
def build_all (location : String) :
    List (String × List OrderEvent) → Except String (List OrderLifecycle)
  | [] => .ok []
  | (oid, evs) :: rest =>
    match build_order_lifecycle oid location evs with
    | .error e => .error e
    | .ok o =>
      match build_all location rest with
      | .error e => .error e
      | .ok os => .ok (o :: os)

/-- `get_orders_in_range` from `order_service.py`, as a function of the
rows the SQL query returns (the rows whose location and timestamp match
the query). -/
def get_orders_in_range (location : String) (start_time end_time : ℚ) (limit : Nat)
    (results : List Row) : Except String TimeRangeResponse :=
  if results = [] then
    .ok {
      location := location
      start_time := start_time
      end_time := end_time
      metrics := {
        total_orders := 0
        completed_orders := 0
        in_progress_orders := 0
        avg_prep_time_minutes := none
        avg_delivery_time_minutes := none
        avg_total_time_minutes := none }
      orders := [] }
  else
    match build_all location (group_by_order_id results) with
    | .error e => .error e
    | .ok orders0 =>
      let orders := if orders0.length > limit then orders0.take limit else orders0
      .ok {
        location := location
        start_time := start_time
        end_time := end_time
        metrics := calculate_metrics orders
        orders := orders }

/-! ### Helper lemmas about sorting and reconstruction -/

/-- The strict version of the sort key. -/
def eventLT (a b : OrderEvent) : Prop := a.timestamp < b.timestamp

theorem sort_events_perm (l : List OrderEvent) : (sort_events l).Perm l :=
  List.perm_insertionSort eventLE l

theorem sort_events_eq_of_perm {l1 l2 : List OrderEvent}
    (hp : l1.Perm l2) (hn : (l1.map (·.timestamp)).Nodup) :
    sort_events l1 = sort_events l2 := by
  have hperm : (sort_events l1).Perm (sort_events l2) :=
    (sort_events_perm l1).trans (hp.trans (sort_events_perm l2).symm)
  have hs1 : (sort_events l1).Sorted eventLE := List.sorted_insertionSort eventLE l1
  have hs2 : (sort_events l2).Sorted eventLE := List.sorted_insertionSort eventLE l2
  have hn1 : ((sort_events l1).map (·.timestamp)).Nodup := by
    have hx : ((sort_events l1).map (·.timestamp)).Perm (l1.map (·.timestamp)) :=
      (sort_events_perm l1).map _
    exact hx.nodup_iff.mpr hn
  have hn2 : ((sort_events l2).map (·.timestamp)).Nodup := by
    have hx : ((sort_events l2).map (·.timestamp)).Perm (l1.map (·.timestamp)) :=
      ((sort_events_perm l2).map _).trans (hp.symm.map _)
    exact hx.nodup_iff.mpr hn
  have key : ∀ l : List OrderEvent, l.Sorted eventLE → (l.map (·.timestamp)).Nodup →
      l.Sorted eventLT := by
    intro l hs hnd
    have hne : l.Pairwise (fun a b => a.timestamp ≠ b.timestamp) :=
      (List.pairwise_map).mp hnd
    exact (hs.and hne).imp (fun h => lt_of_le_of_ne h.1 h.2)
  haveI : IsAntisymm OrderEvent eventLT :=
    ⟨fun _ _ h1 h2 => absurd h2 (not_lt.mpr (le_of_lt h1))⟩
  exact List.eq_of_perm_of_sorted hperm (key _ hs1 hn1) (key _ hs2 hn2)

theorem sort_events_ne_nil {l : List OrderEvent} (h : l ≠ []) : sort_events l ≠ [] := by
  intro hc
  exact h (List.Perm.eq_nil ((sort_events_perm l).symm.trans (hc ▸ List.Perm.refl _)))

theorem build_order_lifecycle_eq (oid loc : String) (events : List OrderEvent)
    (first : OrderEvent) (rest : List OrderEvent)
    (heq : sort_events events = first :: rest) :
    build_order_lifecycle oid loc events = .ok {
      order_id := oid
      location := loc
      brand := (extract_brand_coords (first :: rest)).1
      customer_lat := (extract_brand_coords (first :: rest)).2.1
      customer_lon := (extract_brand_coords (first :: rest)).2.2
      events := first :: rest
      created_at := first.timestamp
      completed_at :=
        if determine_order_status (first :: rest) = "completed" then
          find_last_delivered (first :: rest)
        else none
      status := determine_order_status (first :: rest) } := by
  simp only [build_order_lifecycle, heq]

theorem determine_order_status_perm {l1 l2 : List OrderEvent} (h : l1.Perm l2) :
    determine_order_status l1 = determine_order_status l2 := by
  have hm : ∀ s : String, (s ∈ l1.map (·.event_type)) ↔ s ∈ l2.map (·.event_type) :=
    fun _ => (h.map _).mem_iff
  simp only [determine_order_status, hm]

/-! ### Claim C1 -/

/-- Claim C1 (amended): reconstruction is permutation-invariant for any
event list whose timestamps are pairwise distinct; the whole resulting
`OrderLifecycle` depends only on the multiset of events. -/
theorem reconstruct_perm_invariant (oid loc : String) (l1 l2 : List OrderEvent)
    (hp : l1.Perm l2) (hn : (l1.map (·.timestamp)).Nodup) :
    build_order_lifecycle oid loc l1 = build_order_lifecycle oid loc l2 := by
  have h := sort_events_eq_of_perm hp hn
  simp only [build_order_lifecycle, h]

def c1_ev_early : OrderEvent := ⟨"order_created", 0, some ⟨some "A", none, none, 0⟩⟩

def c1_ev_late : OrderEvent := ⟨"gk_started", 5, none⟩

/-- Claim C1 witness: a concrete two-event list with distinct timestamps
reconstructs identically after swapping the input order. -/
theorem reconstruct_perm_invariant_witness :
    ([c1_ev_early, c1_ev_late] : List OrderEvent).Perm [c1_ev_late, c1_ev_early] ∧
    (([c1_ev_early, c1_ev_late] : List OrderEvent).map (·.timestamp)).Nodup ∧
    build_order_lifecycle "o1" "sf" [c1_ev_early, c1_ev_late] =
      build_order_lifecycle "o1" "sf" [c1_ev_late, c1_ev_early] :=
  ⟨by decide, by decide,
    reconstruct_perm_invariant "o1" "sf" [c1_ev_early, c1_ev_late]
      [c1_ev_late, c1_ev_early] (by decide) (by decide)⟩

def c1_tie_a : OrderEvent := ⟨"order_created", 0, some ⟨some "A", none, none, 0⟩⟩

def c1_tie_b : OrderEvent := ⟨"order_created", 0, some ⟨some "B", none, none, 0⟩⟩

/-- Claim C1 counterexample: with two `order_created` events carrying the
same timestamp but different brands, the stable sort keeps arrival
order, so the two permutations of the same multiset reconstruct to
different states (different `brand`). -/
theorem reconstruct_perm_invariant_counterexample :
    ([c1_tie_a, c1_tie_b] : List OrderEvent).Perm [c1_tie_b, c1_tie_a] ∧
    (build_order_lifecycle "o1" "sf" [c1_tie_a, c1_tie_b]).toOption.map (·.brand) =
      some "A" ∧
    (build_order_lifecycle "o1" "sf" [c1_tie_b, c1_tie_a]).toOption.map (·.brand) =
      some "B" ∧
    build_order_lifecycle "o1" "sf" [c1_tie_a, c1_tie_b] ≠
      build_order_lifecycle "o1" "sf" [c1_tie_b, c1_tie_a] := by
  have h1 : (build_order_lifecycle "o1" "sf" [c1_tie_a, c1_tie_b]).toOption.map (·.brand) =
      some "A" := by decide
  have h2 : (build_order_lifecycle "o1" "sf" [c1_tie_b, c1_tie_a]).toOption.map (·.brand) =
      some "B" := by decide
  exact ⟨by decide, h1, h2, fun h => absurd ((h ▸ h1).symm.trans h2) (by decide)⟩

/-! ### Claim C2 -/

/-- Claim C2: for every non-empty event list, reconstruction succeeds
and the resulting status is the priority-chosen pure function of the set
of event types present in the input. -/
theorem status_priority_of_types (oid loc : String) (events : List OrderEvent)
    (h : events ≠ []) :
    ∃ st, build_order_lifecycle oid loc events = .ok st ∧
      st.status =
        (if "delivered" ∈ events.map (·.event_type) then "completed"
         else if "driver_picked_up" ∈ events.map (·.event_type) ∨
             "driver_ping" ∈ events.map (·.event_type) then "out_for_delivery"
         else if "gk_ready" ∈ events.map (·.event_type) then "ready_for_pickup"
         else if "gk_started" ∈ events.map (·.event_type) ∨
             "gk_finished" ∈ events.map (·.event_type) then "preparing"
         else if "order_created" ∈ events.map (·.event_type) then "created"
         else "unknown") := by
  obtain ⟨first, rest, heq⟩ := List.exists_cons_of_ne_nil (sort_events_ne_nil h)
  refine ⟨_, build_order_lifecycle_eq oid loc events first rest heq, ?_⟩
  have hperm : (first :: rest).Perm events := heq ▸ sort_events_perm events
  have hm : ∀ s : String,
      (s ∈ (first :: rest).map (·.event_type)) ↔ s ∈ events.map (·.event_type) :=
    fun _ => (hperm.map _).mem_iff
  simp only [determine_order_status_perm hperm, determine_order_status, hm]

def c2_ev : OrderEvent := ⟨"order_created", 0, none⟩

/-- Claim C2 witness: a single `order_created` event yields status
`created`. -/
theorem status_priority_of_types_witness :
    ∃ st, build_order_lifecycle "o1" "sf" [c2_ev] = .ok st ∧
      st.status =
        (if "delivered" ∈ ([c2_ev] : List OrderEvent).map (·.event_type) then "completed"
         else if "driver_picked_up" ∈ ([c2_ev] : List OrderEvent).map (·.event_type) ∨
             "driver_ping" ∈ ([c2_ev] : List OrderEvent).map (·.event_type) then
           "out_for_delivery"
         else if "gk_ready" ∈ ([c2_ev] : List OrderEvent).map (·.event_type) then
           "ready_for_pickup"
         else if "gk_started" ∈ ([c2_ev] : List OrderEvent).map (·.event_type) ∨
             "gk_finished" ∈ ([c2_ev] : List OrderEvent).map (·.event_type) then "preparing"
         else if "order_created" ∈ ([c2_ev] : List OrderEvent).map (·.event_type) then
           "created"
         else "unknown") :=
  status_priority_of_types "o1" "sf" [c2_ev] (by decide)

/-! ### Claim C5 -/

theorem status_completed_iff (l : List OrderEvent) :
    determine_order_status l = "completed" ↔ "delivered" ∈ l.map (·.event_type) := by
  simp only [determine_order_status]
  split_ifs with h1 h2 h3 h4 h5 <;> simp_all

theorem find_last_delivered_isSome {l : List OrderEvent}
    (h : "delivered" ∈ l.map (·.event_type)) : (find_last_delivered l).isSome := by
  obtain ⟨ev, hev, ht⟩ := List.mem_map.mp h
  have hfind : (l.reverse.find? (fun e => e.event_type == "delivered")).isSome := by
    rw [List.find?_isSome]
    exact ⟨ev, List.mem_reverse.mpr hev, by simp [ht]⟩
  simpa [find_last_delivered] using hfind

/-- Claim C5: for every non-empty event list, reconstruction succeeds
and `completed_at` is present iff the status is `completed`; when
present it is the timestamp of the last `delivered` event of the sorted
event sequence, and for every other status it is absent. -/
theorem completed_at_iff_terminal (oid loc : String) (events : List OrderEvent)
    (h : events ≠ []) :
    ∃ st, build_order_lifecycle oid loc events = .ok st ∧
      (st.completed_at.isSome ↔ st.status = "completed") ∧
      (st.status = "completed" →
        st.completed_at =
          (st.events.reverse.find? (fun ev => ev.event_type == "delivered")).map
            (·.timestamp)) ∧
      (st.status ≠ "completed" → st.completed_at = none) := by
  obtain ⟨first, rest, heq⟩ := List.exists_cons_of_ne_nil (sort_events_ne_nil h)
  refine ⟨_, build_order_lifecycle_eq oid loc events first rest heq, ?_, ?_, ?_⟩
  · by_cases hc : determine_order_status (first :: rest) = "completed"
    · have hs := find_last_delivered_isSome ((status_completed_iff (first :: rest)).mp hc)
      simp [hc, hs]
    · simp [hc]
  · intro hc
    replace hc : determine_order_status (first :: rest) = "completed" := hc
    simp only [find_last_delivered, if_pos hc]
  · intro hc
    replace hc : ¬determine_order_status (first :: rest) = "completed" := hc
    simp only [if_neg hc]

def c5_created : OrderEvent := ⟨"order_created", 0, none⟩

def c5_delivered : OrderEvent := ⟨"delivered", 10, none⟩

/-- Claim C5 witness: a concrete order with a `delivered` event has
`completed_at` present iff completed, equal to the last `delivered`
timestamp. -/
theorem completed_at_iff_terminal_witness :
    ∃ st, build_order_lifecycle "o1" "sf" [c5_created, c5_delivered] = .ok st ∧
      (st.completed_at.isSome ↔ st.status = "completed") ∧
      (st.status = "completed" →
        st.completed_at =
          (st.events.reverse.find? (fun ev => ev.event_type == "delivered")).map
            (·.timestamp)) ∧
      (st.status ≠ "completed" → st.completed_at = none) :=
  completed_at_iff_terminal "o1" "sf" [c5_created, c5_delivered] (by decide)

/-! ### Claim C7 -/

theorem extract_brand_coords_eq_find (l : List OrderEvent) :
    extract_brand_coords l =
      match l.find? (fun ev => ev.event_type == "order_created" && body_truthy ev.body) with
      | none => ("Unknown", none, none)
      | some e => (brand_of e.body, lat_of e.body, lon_of e.body) := by
  induction l with
  | nil => rfl
  | cons e rest ih =>
    by_cases hc : (e.event_type == "order_created" && body_truthy e.body) = true
    · simp [extract_brand_coords, hc, List.find?_cons_of_pos]
    · simp only [Bool.not_eq_true] at hc
      simp [extract_brand_coords, hc, List.find?_cons_of_neg, ih]

/-- Claim C7 (amended): for every non-empty event list, reconstruction
succeeds and brand and coordinates come from the first (earliest by sort
key) `order_created` event whose body is present and non-empty; events
whose body is `None` or the empty dict are skipped.  If no such event
exists, brand is `Unknown` and the coordinates are absent.  In
particular when two qualifying `order_created` events carry different
brands, the earlier one wins. -/
theorem brand_from_first_created (oid loc : String) (events : List OrderEvent)
    (h : events ≠ []) :
    ∃ st, build_order_lifecycle oid loc events = .ok st ∧
      (st.events.find?
          (fun ev => ev.event_type == "order_created" && body_truthy ev.body) = none →
        st.brand = "Unknown" ∧ st.customer_lat = none ∧ st.customer_lon = none) ∧
      (∀ e, st.events.find?
          (fun ev => ev.event_type == "order_created" && body_truthy ev.body) = some e →
        st.brand = brand_of e.body ∧ st.customer_lat = lat_of e.body ∧
          st.customer_lon = lon_of e.body) := by
  obtain ⟨first, rest, heq⟩ := List.exists_cons_of_ne_nil (sort_events_ne_nil h)
  refine ⟨_, build_order_lifecycle_eq oid loc events first rest heq, ?_, ?_⟩
  · intro hf
    replace hf : (first :: rest).find?
        (fun ev => ev.event_type == "order_created" && body_truthy ev.body) = none := hf
    refine ⟨?_, ?_, ?_⟩ <;>
      simp only [extract_brand_coords_eq_find, hf]
  · intro e hf
    replace hf : (first :: rest).find?
        (fun ev => ev.event_type == "order_created" && body_truthy ev.body) = some e := hf
    refine ⟨?_, ?_, ?_⟩ <;>
      simp only [extract_brand_coords_eq_find, hf]

def c7_ev : OrderEvent := ⟨"order_created", 0, some ⟨some "A", some 1, some 2, 0⟩⟩

/-- Claim C7 witness: a concrete order whose single `order_created`
event carries a non-empty body. -/
theorem brand_from_first_created_witness :
    ∃ st, build_order_lifecycle "o1" "sf" [c7_ev] = .ok st ∧
      (st.events.find?
          (fun ev => ev.event_type == "order_created" && body_truthy ev.body) = none →
        st.brand = "Unknown" ∧ st.customer_lat = none ∧ st.customer_lon = none) ∧
      (∀ e, st.events.find?
          (fun ev => ev.event_type == "order_created" && body_truthy ev.body) = some e →
        st.brand = brand_of e.body ∧ st.customer_lat = lat_of e.body ∧
          st.customer_lon = lon_of e.body) :=
  brand_from_first_created "o1" "sf" [c7_ev] (by decide)

def c7_nobody : OrderEvent := ⟨"order_created", 0, none⟩

def c7_later : OrderEvent := ⟨"order_created", 1, some ⟨some "B", none, none, 0⟩⟩

/-- Claim C7 counterexample: the earliest `order_created` event has no
payload, yet the reconstructed brand is taken from the LATER
`order_created` event, so the brand is not taken from the payload of the
first `order_created` event. -/
theorem brand_from_first_created_counterexample :
    (sort_events [c7_nobody, c7_later]).find?
        (fun ev => ev.event_type == "order_created") = some c7_nobody ∧
    c7_nobody.body = none ∧
    (build_order_lifecycle "o1" "sf" [c7_nobody, c7_later]).toOption.map (·.brand) =
      some "B" := by
  refine ⟨by decide, rfl, by decide⟩

/-! ### Claims C4 and C6: metrics machinery -/

/-- The prep-time contributions: one value per order that is counted as
completed (status `completed` with `completed_at` set) and whose event
map contains both `order_created` and `gk_ready`. -/
def prep_contributions (orders : List OrderLifecycle) : List ℚ :=
  orders.filterMap (fun o =>
    if o.status = "completed" ∧ o.completed_at ≠ none then
      match event_map_ts o.events "order_created", event_map_ts o.events "gk_ready" with
      | some c, some r => some ((r - c) / 60)
      | _, _ => none
    else none)

/-- The delivery-time contributions: one value per completed order whose
event map contains both `gk_ready` and `delivered`. -/
def delivery_contributions (orders : List OrderLifecycle) : List ℚ :=
  orders.filterMap (fun o =>
    if o.status = "completed" ∧ o.completed_at ≠ none then
      match event_map_ts o.events "gk_ready", event_map_ts o.events "delivered" with
      | some r, some d => some ((d - r) / 60)
      | _, _ => none
    else none)

/-- The total-time contributions: one value per completed order. -/
def total_contributions (orders : List OrderLifecycle) : List ℚ :=
  orders.filterMap (fun o =>
    if o.status = "completed" ∧ o.completed_at ≠ none then
      match o.completed_at with
      | some ca => some ((ca - o.created_at) / 60)
      | none => none
    else none)

theorem metrics_step_eq (acc : TimesAcc) (o : OrderLifecycle) :
    metrics_step acc o =
      ⟨acc.prep_times ++ prep_contributions [o],
       acc.delivery_times ++ delivery_contributions [o],
       acc.total_times ++ total_contributions [o]⟩ := by
  by_cases hc : o.status = "completed" ∧ o.completed_at ≠ none
  · obtain ⟨ca, hca⟩ := Option.ne_none_iff_exists'.mp hc.2
    simp only [metrics_step, prep_contributions, delivery_contributions,
      total_contributions, List.filterMap, if_pos hc, hca]
    cases h1 : event_map_ts o.events "order_created" <;>
      cases h2 : event_map_ts o.events "gk_ready" <;>
        cases h3 : event_map_ts o.events "delivered" <;>
          simp [hca, hc.1]
  · simp [metrics_step, prep_contributions, delivery_contributions,
      total_contributions, List.filterMap, if_neg hc]

theorem foldl_metrics_step (orders : List OrderLifecycle) (acc : TimesAcc) :
    orders.foldl metrics_step acc =
      ⟨acc.prep_times ++ prep_contributions orders,
       acc.delivery_times ++ delivery_contributions orders,
       acc.total_times ++ total_contributions orders⟩ := by
  induction orders generalizing acc with
  | nil => simp [prep_contributions, delivery_contributions, total_contributions]
  | cons o rest ih =>
    rw [List.foldl_cons, ih, metrics_step_eq]
    simp only [prep_contributions, delivery_contributions, total_contributions,
      List.filterMap_cons]
    cases hp : (if o.status = "completed" ∧ o.completed_at ≠ none then
        match event_map_ts o.events "order_created", event_map_ts o.events "gk_ready" with
        | some c, some r => some ((r - c) / 60)
        | _, _ => none
      else none) <;>
    cases hd : (if o.status = "completed" ∧ o.completed_at ≠ none then
        match event_map_ts o.events "gk_ready", event_map_ts o.events "delivered" with
        | some r, some d => some ((d - r) / 60)
        | _, _ => none
      else none) <;>
    cases ht : (if o.status = "completed" ∧ o.completed_at ≠ none then
        match o.completed_at with
        | some ca => some ((ca - o.created_at) / 60)
        | none => none
      else none) <;>
    simp [List.filterMap, hp, hd, ht]

theorem calculate_metrics_avg (orders : List OrderLifecycle) :
    (calculate_metrics orders).avg_prep_time_minutes =
      avg_opt (prep_contributions orders) ∧
    (calculate_metrics orders).avg_delivery_time_minutes =
      avg_opt (delivery_contributions orders) ∧
    (calculate_metrics orders).avg_total_time_minutes =
      avg_opt (total_contributions orders) := by
  simp [calculate_metrics, foldl_metrics_step]

/-! ### Claim C4 -/

/-- Claim C4 (amended): an order contributes
`prep_minutes = (gk_ready ts − order_created ts) / 60` to the prep-time
average only when it is counted completed (status `completed` with
`completed_at` set) AND both milestones exist in its event-type map
(last occurrence of each type), and contributes
`delivery_minutes = (delivered ts − gk_ready ts) / 60` under the same
completion condition with both of those milestones; each reported
average is the arithmetic mean over exactly the contributing orders, and
absent when no order contributes. -/
theorem avg_times_over_contributors (orders : List OrderLifecycle) :
    (calculate_metrics orders).avg_prep_time_minutes =
      (if prep_contributions orders = [] then none
       else some ((prep_contributions orders).sum /
         ((prep_contributions orders).length : ℚ))) ∧
    (calculate_metrics orders).avg_delivery_time_minutes =
      (if delivery_contributions orders = [] then none
       else some ((delivery_contributions orders).sum /
         ((delivery_contributions orders).length : ℚ))) := by
  refine ⟨?_, ?_⟩
  · rw [(calculate_metrics_avg orders).1]; rfl
  · rw [(calculate_metrics_avg orders).2.1]; rfl

def c4_created : OrderEvent := ⟨"order_created", 0, none⟩

def c4_ready : OrderEvent := ⟨"gk_ready", 60, none⟩

def c4_order : OrderLifecycle :=
  { order_id := "o1"
    location := "sf"
    brand := "Unknown"
    customer_lat := none
    customer_lon := none
    events := [c4_created, c4_ready]
    created_at := 0
    completed_at := none
    status := "ready_for_pickup" }

/-- Claim C4 counterexample: an order holding both the `order_created`
and `gk_ready` milestones but not delivered contributes nothing: the
prep-time average over this single order is absent, not the
one-minute mean the claim requires. -/
theorem avg_times_counterexample :
    build_order_lifecycle "o1" "sf" [c4_created, c4_ready] = .ok c4_order ∧
    "order_created" ∈ c4_order.events.map (·.event_type) ∧
    "gk_ready" ∈ c4_order.events.map (·.event_type) ∧
    (calculate_metrics [c4_order]).avg_prep_time_minutes = none := by
  exact ⟨rfl, by decide, by decide, by decide⟩

/-! ### Claim C6 -/

theorem avg_opt_eq_none (xs : List ℚ) : avg_opt xs = none ↔ xs = [] := by
  by_cases h : xs = [] <;> simp [avg_opt, h]

/-- Claim C6: for EVERY collection of orders, each reported average is
absent (`none`) exactly when zero orders contribute to that average —
never `0`, and the total embedding shows no division is ever reached for
an empty contributor set.  In particular with zero completed orders all
three averages are absent and the completed count is zero; and a range
query over no rows returns the zero-valued response rather than an
error. -/
theorem empty_contributors_absent (loc : String) (s e : ℚ) (limit : Nat)
    (orders : List OrderLifecycle) :
    ((calculate_metrics orders).avg_prep_time_minutes = none ↔
      prep_contributions orders = []) ∧
    ((calculate_metrics orders).avg_delivery_time_minutes = none ↔
      delivery_contributions orders = []) ∧
    ((calculate_metrics orders).avg_total_time_minutes = none ↔
      total_contributions orders = []) ∧
    ((∀ o ∈ orders, o.status ≠ "completed") →
      (calculate_metrics orders).avg_prep_time_minutes = none ∧
      (calculate_metrics orders).avg_delivery_time_minutes = none ∧
      (calculate_metrics orders).avg_total_time_minutes = none ∧
      (calculate_metrics orders).completed_orders = 0) ∧
    get_orders_in_range loc s e limit [] = .ok {
      location := loc
      start_time := s
      end_time := e
      metrics := {
        total_orders := 0
        completed_orders := 0
        in_progress_orders := 0
        avg_prep_time_minutes := none
        avg_delivery_time_minutes := none
        avg_total_time_minutes := none }
      orders := [] } := by
  have hiffp : (calculate_metrics orders).avg_prep_time_minutes = none ↔
      prep_contributions orders = [] := by
    rw [(calculate_metrics_avg orders).1, avg_opt_eq_none]
  have hiffd : (calculate_metrics orders).avg_delivery_time_minutes = none ↔
      delivery_contributions orders = [] := by
    rw [(calculate_metrics_avg orders).2.1, avg_opt_eq_none]
  have hifft : (calculate_metrics orders).avg_total_time_minutes = none ↔
      total_contributions orders = [] := by
    rw [(calculate_metrics_avg orders).2.2, avg_opt_eq_none]
  refine ⟨hiffp, hiffd, hifft, ?_, rfl⟩
  intro h
  have hnone : ∀ o ∈ orders, ¬(o.status = "completed" ∧ o.completed_at ≠ none) :=
    fun o ho hco => h o ho hco.1
  refine ⟨?_, ?_, ?_, ?_⟩
  · rw [hiffp, prep_contributions, List.filterMap_eq_nil_iff]
    intro o ho
    rw [if_neg (hnone o ho)]
  · rw [hiffd, delivery_contributions, List.filterMap_eq_nil_iff]
    intro o ho
    rw [if_neg (hnone o ho)]
  · rw [hifft, total_contributions, List.filterMap_eq_nil_iff]
    intro o ho
    rw [if_neg (hnone o ho)]
  · simp only [calculate_metrics]
    rw [List.countP_eq_zero]
    intro o ho
    simpa using h o ho

/-- A completed order that never saw a `gk_ready` event: it contributes
to the total-time average but to neither the prep-time nor the
delivery-time average. -/
def c6_completed_order : OrderLifecycle :=
  { order_id := "o2"
    location := "sf"
    brand := "Unknown"
    customer_lat := none
    customer_lon := none
    events := [⟨"order_created", 0, none⟩, ⟨"delivered", 120, none⟩]
    created_at := 0
    completed_at := some 120
    status := "completed" }

/-- Claim C6 witness: over one completed order lacking `gk_ready`, zero
orders contribute to the prep and delivery averages and both are
reported absent even though a completed order is present; the
total-time average (one contributor) is present, and the empty range
query returns the zero-valued response. -/
theorem empty_contributors_absent_witness :
    (calculate_metrics [c6_completed_order]).avg_prep_time_minutes = none ∧
    (calculate_metrics [c6_completed_order]).avg_delivery_time_minutes = none ∧
    ¬(calculate_metrics [c6_completed_order]).avg_total_time_minutes = none ∧
    get_orders_in_range "sf" 0 10 100 [] = .ok {
      location := "sf"
      start_time := 0
      end_time := 10
      metrics := {
        total_orders := 0
        completed_orders := 0
        in_progress_orders := 0
        avg_prep_time_minutes := none
        avg_delivery_time_minutes := none
        avg_total_time_minutes := none }
      orders := [] } :=
  ⟨(empty_contributors_absent "sf" 0 10 100 [c6_completed_order]).1.mpr (by decide),
   (empty_contributors_absent "sf" 0 10 100 [c6_completed_order]).2.1.mpr (by decide),
   fun hc =>
     absurd ((empty_contributors_absent "sf" 0 10 100 [c6_completed_order]).2.2.1.mp hc)
       (by decide),
   (empty_contributors_absent "sf" 0 10 100 [c6_completed_order]).2.2.2.2⟩

/-! ### Claims C3 and C10: range-query machinery -/

theorem build_order_lifecycle_ok (oid loc : String) {evs : List OrderEvent}
    (h : evs ≠ []) : ∃ st, build_order_lifecycle oid loc evs = .ok st := by
  obtain ⟨first, rest, heq⟩ := List.exists_cons_of_ne_nil (sort_events_ne_nil h)
  exact ⟨_, build_order_lifecycle_eq oid loc evs first rest heq⟩

theorem add_event_preserves_nonempty :
    ∀ (acc : List (String × List OrderEvent)) (oid : String) (ev : OrderEvent),
      (∀ p ∈ acc, p.2 ≠ []) → ∀ p ∈ add_event acc oid ev, p.2 ≠ []
  | [], oid, ev, _ => by
    intro p hp
    simp only [add_event, List.mem_singleton] at hp
    subst hp
    simp
  | (k, evs) :: rest, oid, ev, hacc => by
    intro p hp
    simp only [add_event] at hp
    by_cases hk : k = oid
    · rw [if_pos hk] at hp
      rcases List.mem_cons.mp hp with h | h
      · subst h; simp
      · exact hacc p (List.mem_cons_of_mem _ h)
    · rw [if_neg hk] at hp
      rcases List.mem_cons.mp hp with h | h
      · subst h
        exact hacc (k, evs) (List.mem_cons_self _ _)
      · exact add_event_preserves_nonempty rest oid ev
          (fun q hq => hacc q (List.mem_cons_of_mem _ hq)) p h

theorem group_by_order_id_nonempty (rows : List Row) :
    ∀ p ∈ group_by_order_id rows, p.2 ≠ [] := by
  have main : ∀ (l : List Row) (acc : List (String × List OrderEvent)),
      (∀ p ∈ acc, p.2 ≠ []) →
      ∀ p ∈ l.foldl (fun acc r => add_event acc r.order_id (row_to_event r)) acc,
        p.2 ≠ [] := by
    intro l
    induction l with
    | nil => intro acc hacc; simpa using hacc
    | cons r rest ih =>
      intro acc hacc
      rw [List.foldl_cons]
      exact ih _ (add_event_preserves_nonempty acc r.order_id (row_to_event r) hacc)
  exact main rows [] (by simp)

theorem build_all_ok (loc : String) :
    ∀ (gs : List (String × List OrderEvent)), (∀ p ∈ gs, p.2 ≠ []) →
      ∃ all, build_all loc gs = .ok all ∧ all.length = gs.length
  | [], _ => ⟨[], rfl, rfl⟩
  | (oid, evs) :: rest, hg => by
    obtain ⟨st, hst⟩ :=
      build_order_lifecycle_ok oid loc (hg (oid, evs) (List.mem_cons_self _ _))
    obtain ⟨all, hall, hlen⟩ :=
      build_all_ok loc rest (fun p hp => hg p (List.mem_cons_of_mem _ hp))
    exact ⟨st :: all, by simp [build_all, hst, hall], by simp [hlen]⟩

theorem get_orders_in_range_ok (loc : String) (s e : ℚ) (limit : Nat) (rows : List Row) :
    ∃ resp all, build_all loc (group_by_order_id rows) = .ok all ∧
      get_orders_in_range loc s e limit rows = .ok resp ∧
      resp.orders = all.take limit ∧
      resp.metrics = calculate_metrics (all.take limit) ∧
      all.length = (group_by_order_id rows).length := by
  by_cases hr : rows = []
  · subst hr
    refine ⟨_, [], rfl, rfl, ?_, ?_, rfl⟩
    · rw [List.take_nil]
    · rw [List.take_nil]
      rfl
  · obtain ⟨all, hall, hlen⟩ :=
      build_all_ok loc (group_by_order_id rows) (group_by_order_id_nonempty rows)
    have horders : (if all.length > limit then all.take limit else all) = all.take limit := by
      by_cases hl : all.length > limit
      · rw [if_pos hl]
      · rw [if_neg hl]
        exact (List.take_of_length_le (Nat.le_of_not_lt hl)).symm
    refine ⟨⟨loc, s, e, calculate_metrics (all.take limit), all.take limit⟩, all, hall,
      ?_, rfl, rfl, hlen⟩
    simp only [get_orders_in_range, if_neg hr, hall, horders]

/-! ### Claim C3 -/

/-- Claim C3 (amended): the range query returns `min limit n` orders
where `n` is the number of matching orders — exactly `limit` orders when
more than `limit` match and all matching orders otherwise; the response
carries no `truncated` field (its fields are exactly `location`,
`start_time`, `end_time`, `metrics`, `orders`). -/
theorem limit_truncation (loc : String) (s e : ℚ) (limit : Nat) (rows : List Row) :
    ∃ resp all, build_all loc (group_by_order_id rows) = .ok all ∧
      get_orders_in_range loc s e limit rows = .ok resp ∧
      resp.orders = all.take limit ∧
      resp.orders.length = min limit all.length ∧
      all.length = (group_by_order_id rows).length ∧
      ((group_by_order_id rows).length > limit → resp.orders.length = limit) := by
  obtain ⟨resp, all, hall, hget, ho, _, hlen⟩ := get_orders_in_range_ok loc s e limit rows
  refine ⟨resp, all, hall, hget, ho, ?_, hlen, ?_⟩
  · rw [ho, List.length_take]
  · intro hgt
    rw [ho, List.length_take]
    omega

def c3_row (oid : String) (t : ℚ) : Row := ⟨"order_created", t, oid, none⟩

def c3_rows3 : List Row := [c3_row "a" 0, c3_row "b" 1, c3_row "c" 2]

def c3_rows1 : List Row := [c3_row "a" 0]

/-- Claim C3 witness: with `limit = 1` and 3 matching orders the query
returns exactly 1 order. -/
theorem limit_truncation_witness :
    ∃ resp all, build_all "sf" (group_by_order_id c3_rows3) = .ok all ∧
      get_orders_in_range "sf" 0 10 1 c3_rows3 = .ok resp ∧
      resp.orders = all.take 1 ∧
      resp.orders.length = min 1 all.length ∧
      all.length = (group_by_order_id c3_rows3).length ∧
      ((group_by_order_id c3_rows3).length > 1 → resp.orders.length = 1) :=
  limit_truncation "sf" 0 10 1 c3_rows3

def c3_order_a : OrderLifecycle :=
  { order_id := "a"
    location := "sf"
    brand := "Unknown"
    customer_lat := none
    customer_lon := none
    events := [⟨"order_created", 0, none⟩]
    created_at := 0
    completed_at := none
    status := "created" }

def c3_resp : TimeRangeResponse :=
  { location := "sf"
    start_time := 0
    end_time := 10
    metrics := {
      total_orders := 1
      completed_orders := 0
      in_progress_orders := 1
      avg_prep_time_minutes := none
      avg_delivery_time_minutes := none
      avg_total_time_minutes := none }
    orders := [c3_order_a] }

/-- Claim C3 counterexample: a truncated query (3 matching orders,
`limit = 1`) and an untruncated one (1 matching order, `limit = 1`)
produce the IDENTICAL response, so no function of the response — in
particular no `truncated` field — can be `true` for the first and
`false` for the second; the response type carries no such field. -/
theorem limit_truncation_counterexample :
    (group_by_order_id c3_rows3).length = 3 ∧
    (group_by_order_id c3_rows1).length = 1 ∧
    get_orders_in_range "sf" 0 10 1 c3_rows3 = .ok c3_resp ∧
    get_orders_in_range "sf" 0 10 1 c3_rows1 = .ok c3_resp ∧
    ¬∃ t : TimeRangeResponse → Bool,
        (∀ r, get_orders_in_range "sf" 0 10 1 c3_rows3 = .ok r → t r = true) ∧
        (∀ r, get_orders_in_range "sf" 0 10 1 c3_rows1 = .ok r → t r = false) := by
  have h3 : get_orders_in_range "sf" 0 10 1 c3_rows3 = .ok c3_resp := rfl
  have h1 : get_orders_in_range "sf" 0 10 1 c3_rows1 = .ok c3_resp := rfl
  refine ⟨by decide, by decide, h3, h1, ?_⟩
  rintro ⟨t, ht3, ht1⟩
  exact absurd ((ht3 c3_resp h3).symm.trans (ht1 c3_resp h1)) (by decide)

/-! ### Claim C10 -/

/-- Claim C10: the metrics of a range-query response are computed over
only the returned (post-limit) subset of orders: `total_orders` is the
number of returned orders (hence at most `limit`), `completed_orders`
counts only returned orders with status `completed`,
`in_progress_orders` is their difference, and orders cut off by the
limit contribute to no count or average. -/
theorem metrics_over_returned_subset (loc : String) (s e : ℚ) (limit : Nat)
    (rows : List Row) :
    ∃ resp all, build_all loc (group_by_order_id rows) = .ok all ∧
      get_orders_in_range loc s e limit rows = .ok resp ∧
      resp.orders = all.take limit ∧
      resp.metrics = calculate_metrics resp.orders ∧
      resp.metrics.total_orders = resp.orders.length ∧
      resp.metrics.total_orders ≤ limit ∧
      resp.metrics.completed_orders =
        (resp.orders.filter (fun o => o.status == "completed")).length ∧
      resp.metrics.in_progress_orders =
        resp.metrics.total_orders - resp.metrics.completed_orders := by
  obtain ⟨resp, all, hall, hget, ho, hm, _⟩ := get_orders_in_range_ok loc s e limit rows
  have hmetrics : resp.metrics = calculate_metrics resp.orders := by rw [hm, ho]
  refine ⟨resp, all, hall, hget, ho, hmetrics, ?_, ?_, ?_, ?_⟩
  · rw [hmetrics]; rfl
  · rw [hmetrics]
    show resp.orders.length ≤ limit
    rw [ho]
    exact List.length_take_le limit all
  · rw [hmetrics]
    simp only [calculate_metrics]
    exact List.countP_eq_length_filter _ _
  · rw [hmetrics]; rfl

/-! ### Claim C8 -/

/-- Claim C8: reconstruction of an empty event list fails with an error
(the `ValueError` the spec names `EmptyOrderError`); no synthetic
`OrderLifecycle` is produced for zero events. -/
theorem empty_events_error (oid loc : String) :
    build_order_lifecycle oid loc [] = .error ("No events provided for order " ++ oid) :=
  rfl

/-! ### Claim C9: streaming watermark semantics -/

/-- Modelled from the spec: the 3-hour lateness tolerance of
`withWatermark("order_ts", "3 hours")` in
`src/pipelines/order_items/transformations/transformation.py`, in
seconds.  The watermark engine itself is Spark Structured Streaming
machinery and is not part of the repository sources. -/
def lateness_tolerance : Int := 10800

/-- Modelled from the spec: the bucket key of an event is
`truncate(event.timestamp, granularity)` — the timestamp floored to a
multiple of the granularity (e.g. `date_trunc("hour", order_ts)` with
`g = 3600` seconds). -/
def bucket_key (g ts : Int) : Int := g * Int.fdiv ts g

/-- Modelled from the spec: the state of the streaming aggregation
engine — the maximum event timestamp seen so far and the per-bucket
aggregates (event counts keyed by bucket start). -/
structure StreamState where
  max_seen : Option Int
  buckets : Int → Nat

/-- Modelled from the spec: the watermark is
`max(seen timestamp) − lateness_tolerance` (undefined before any event
is seen). -/
def watermark (s : StreamState) : Option Int :=
  s.max_seen.map (· - lateness_tolerance)

/-- Modelled from the spec: on each incoming event compute its bucket
key; if `bucket_key < watermark` the event is dropped (no aggregate
changes), otherwise it is merged into its bucket; the maximum seen
timestamp always advances. -/
def ingest (g : Int) (s : StreamState) (ts : Int) : StreamState :=
  match s.max_seen with
  | none =>
    { max_seen := some ts
      buckets := fun k => if k = bucket_key g ts then s.buckets k + 1 else s.buckets k }
  | some m =>
    if bucket_key g ts < m - lateness_tolerance then
      { max_seen := some (max m ts), buckets := s.buckets }
    else
      { max_seen := some (max m ts)
        buckets := fun k => if k = bucket_key g ts then s.buckets k + 1 else s.buckets k }

/-- Ingestion of a whole event sequence in arrival order. -/
def ingest_all (g : Int) (s : StreamState) (l : List Int) : StreamState :=
  l.foldl (ingest g) s

theorem watermark_mono_step (g : Int) (s : StreamState) (ts wm : Int)
    (hw : watermark s = some wm) :
    ∃ wm', watermark (ingest g s ts) = some wm' ∧ wm ≤ wm' := by
  obtain ⟨m, hm, hwm⟩ := Option.map_eq_some'.mp hw
  refine ⟨max m ts - lateness_tolerance, ?_, ?_⟩
  · simp only [ingest, hm]
    by_cases h : bucket_key g ts < m - lateness_tolerance <;>
      simp [h, watermark]
  · omega

theorem buckets_preserved_step (g : Int) (hg : 0 < g) (s : StreamState) (ts k wm : Int)
    (hw : watermark s = some wm) (hk : k + g ≤ wm) :
    (ingest g s ts).buckets k = s.buckets k := by
  obtain ⟨m, hm, hwm⟩ := Option.map_eq_some'.mp hw
  simp only [ingest, hm]
  by_cases h : bucket_key g ts < m - lateness_tolerance
  · simp [h]
  · simp only [if_neg h]
    by_cases hkk : k = bucket_key g ts
    · exfalso
      rw [← hkk] at h
      omega
    · simp [hkk]

theorem buckets_preserved_all (g : Int) (hg : 0 < g) (s : StreamState) (k wm : Int)
    (l : List Int) (hw : watermark s = some wm) (hk : k + g ≤ wm) :
    (ingest_all g s l).buckets k = s.buckets k := by
  induction l generalizing s wm with
  | nil => rfl
  | cons ts rest ih =>
    obtain ⟨wm', hw', hle⟩ := watermark_mono_step g s ts wm hw
    calc (ingest_all g s (ts :: rest)).buckets k
        = (ingest_all g (ingest g s ts) rest).buckets k := rfl
      _ = (ingest g s ts).buckets k := ih (ingest g s ts) wm' hw' (le_trans hk hle)
      _ = s.buckets k := buckets_preserved_step g hg s ts k wm hw hk

theorem watermark_mono_all (g : Int) (s : StreamState) (wm : Int) (l : List Int)
    (hw : watermark s = some wm) :
    ∃ wm', watermark (ingest_all g s l) = some wm' ∧ wm ≤ wm' := by
  induction l generalizing s wm with
  | nil => exact ⟨wm, hw, le_refl wm⟩
  | cons ts rest ih =>
    obtain ⟨wm1, hw1, hle1⟩ := watermark_mono_step g s ts wm hw
    obtain ⟨wm2, hw2, hle2⟩ := ih (ingest g s ts) wm1 hw1
    exact ⟨wm2, hw2, le_trans hle1 hle2⟩

/-- Claim C9: in the streaming aggregation engine (modelled from the
spec — the Spark watermark machinery behind `withWatermark` is not part
of the repository sources), an event whose bucket key lies below the
current watermark is dropped and changes no bucket aggregate; the
watermark is non-decreasing over any further ingestion sequence; and a
finalized bucket — one with `bucket_start + granularity ≤ watermark` —
never changes again under any further ingestion. -/
theorem watermark_semantics (g : Int) (hg : 0 < g) (s : StreamState) (ts k wm : Int)
    (l : List Int) (hw : watermark s = some wm) :
    (bucket_key g ts < wm → ∀ j, (ingest g s ts).buckets j = s.buckets j) ∧
    (∃ wm', watermark (ingest_all g s l) = some wm' ∧ wm ≤ wm') ∧
    (k + g ≤ wm → (ingest_all g s l).buckets k = s.buckets k) := by
  obtain ⟨m, hm, hwm⟩ := Option.map_eq_some'.mp hw
  refine ⟨?_, watermark_mono_all g s wm l hw, fun hk => buckets_preserved_all g hg s k wm l hw hk⟩
  intro hlt j
  simp only [ingest, hm]
  rw [if_pos (hwm ▸ hlt)]

def c9_s0 : StreamState := { max_seen := some 20000, buckets := fun _ => 0 }

/-- Claim C9 witness: with max seen timestamp 20000 the watermark is
9200; an event at timestamp 0 (bucket 0 < 9200) is dropped and changes
no bucket, and the finalized bucket 0 (0 + 3600 ≤ 9200) survives a later
in-time event unchanged. -/
theorem watermark_semantics_witness :
    (ingest 3600 c9_s0 0).buckets 0 = c9_s0.buckets 0 ∧
    (ingest_all 3600 c9_s0 [99999]).buckets 0 = c9_s0.buckets 0 := by
  have h := watermark_semantics 3600 (by decide) c9_s0 0 0 9200 [99999] rfl
  exact ⟨h.1 (by decide) 0, h.2.2 (by decide)⟩

end Kitchen
